import Mathlib

/-
Shallow embedding of the buffer-pool core of the repository:
LRUKReplacer (src/unnamed/part_001), BufferPoolManager (src/unnamed/part_000)
and the DiskScheduler worker plus page guards
(src/src/storage/disk/disk_scheduler.cpp).

Modelling conventions:
  - frame_id_t and page_id_t are C++ int32; operations never produce values
    outside small ranges, so they are embedded as Int (the code compares
    them with 0 and with sentinels -1).
  - size_t counters are embedded as Nat.  The constant
    std::numeric_limits<size_t>::max() used as the infinite backward
    K-distance is embedded as the literal 2 ^ 64 - 1.
  - node_store_ is a std::unordered_map keyed by frame id; it is embedded
    as a list of nodes (iteration order of the map is abstracted by the
    list order; the theorems below hold for every order) with map update,
    lookup and erase on the fid key.
  - C++ exceptions (bustub Exception with OUT_OF_RANGE / INVALID) are
    embedded as Except ReplacerError.
-/

namespace Bustub

/-- Embedding of std::numeric_limits<size_t>::max(), the value the code
uses as the infinite backward K-distance in LRUKReplacer::Evict. -/
def sizeTMax : Nat := 2 ^ 64 - 1

/-- Exception types raised by the replacer: ExceptionType::OUT_OF_RANGE and
ExceptionType::INVALID in the source. -/
inductive ReplacerError where
  | outOfRange
  | invalidOp
deriving DecidableEq

/-- LRUKNode from the source: frame id, bounded access history
(front = oldest timestamp, push_back appends), evictable flag. -/
structure LRUKNode where
  fid_ : Int
  history_ : List Nat
  is_evictable_ : Bool
deriving DecidableEq

/-- LRUKReplacer state: node_store_ (map FrameId to LRUKNode, embedded as a
list), current_timestamp_, curr_size_, replacer_size_ (num_frames) and k_. -/
structure LRUKReplacer where
  node_store_ : List LRUKNode
  current_timestamp_ : Nat
  curr_size_ : Nat
  replacer_size_ : Nat
  k_ : Nat
deriving DecidableEq

/-- Embedding of node.history_.front().  Histories of nodes created by
RecordAccess with k_ >= 1 are never empty; the headD default 0 stands for
the C++ undefined behaviour of front() on an empty deque. -/
def front (n : LRUKNode) : Nat := n.history_.headD 0

/-- Backward K-distance exactly as computed inside LRUKReplacer::Evict:
history_.size() < k_ gives the infinite class (size_t max), otherwise
current_timestamp_ - history_.front(). -/
def distOf (r : LRUKReplacer) (n : LRUKNode) : Nat :=
  if n.history_.length < r.k_ then sizeTMax else r.current_timestamp_ - front n

/-- Map erase on node_store_: removes the entry with the given key.  The
C++ map holds at most one node per fid, so filtering every match is the
same operation. -/
def eraseNode (s : List LRUKNode) (fid : Int) : List LRUKNode :=
  s.filter (fun n => n.fid_ != fid)

/-- Map lookup on node_store_ by frame id. -/
def findNode (s : List LRUKNode) (fid : Int) : Option LRUKNode :=
  s.find? (fun n => n.fid_ == fid)

/-- The scan in LRUKReplacer::Evict over node_store_.  The C++ remembers
victim_id (initially INVALID_FRAME_ID) and max_distance, and re-reads
node_store_[victim_id].history_.front() for the tie-break; since the map
is keyed by fid and stored fids are nonnegative (RecordAccess rejects
negative ids), remembering the victim node itself is the same scan with
the INVALID sentinel embedded as the none case. -/
def evictLoop (r : LRUKReplacer) : List LRUKNode → Option LRUKNode × Nat → Option LRUKNode × Nat
  | [], acc => acc
  | n :: rest, acc =>
    if n.is_evictable_ = false then
      evictLoop r rest acc
    else
      match acc with
      | (none, _) => evictLoop r rest (some n, distOf r n)
      | (some v, maxd) =>
        if maxd < distOf r n ∨ (maxd = distOf r n ∧ front n < front v) then
          evictLoop r rest (some n, distOf r n)
        else
          evictLoop r rest (some v, maxd)

/-- LRUKReplacer::Evict: scan node_store_ for the evictable node of
greatest backward K-distance (ties by smaller history front), erase it and
decrement curr_size_; returns none (C++ false) when nothing is evictable. -/
def LRUKReplacer.Evict (r : LRUKReplacer) : Option Int × LRUKReplacer :=
  match evictLoop r r.node_store_ (none, 0) with
  | (some v, _) =>
    (some v.fid_,
      { r with node_store_ := eraseNode r.node_store_ v.fid_,
               curr_size_ := r.curr_size_ - 1 })
  | (none, _) => (none, r)

/-- LRUKReplacer::RecordAccess: range check (the source compares with >
against replacer_size_, not >=), bump current_timestamp_, append it to the
history of the node (default-creating the node if absent, as the map
subscript operator does), then trim the history from the front while its
length exceeds k_. -/
def LRUKReplacer.RecordAccess (r : LRUKReplacer) (frame_id : Int) : Except ReplacerError LRUKReplacer :=
  if frame_id < 0 ∨ frame_id.toNat > r.replacer_size_ then
    .error .outOfRange
  else
    let ts := r.current_timestamp_ + 1
    let upd : LRUKNode → LRUKNode := fun n =>
      let h := n.history_ ++ [ts]
      { n with fid_ := frame_id, history_ := h.drop (h.length - r.k_) }
    if (findNode r.node_store_ frame_id).isSome then
      .ok { r with current_timestamp_ := ts,
                   node_store_ := r.node_store_.map
                     (fun n => if n.fid_ = frame_id then upd n else n) }
    else
      .ok { r with current_timestamp_ := ts,
                   node_store_ := r.node_store_ ++ [upd ⟨frame_id, [], false⟩] }

/-- LRUKReplacer::SetEvictable: range check as in the source (> against
replacer_size_), no-op when the node is absent or the flag is unchanged,
otherwise flip the flag and adjust curr_size_. -/
def LRUKReplacer.SetEvictable (r : LRUKReplacer) (frame_id : Int) (set_evictable : Bool) : Except ReplacerError LRUKReplacer :=
  if frame_id < 0 ∨ frame_id.toNat > r.replacer_size_ then
    .error .outOfRange
  else
    match findNode r.node_store_ frame_id with
    | none => .ok r
    | some node =>
      if node.is_evictable_ ≠ set_evictable then
        .ok { r with node_store_ := r.node_store_.map
                       (fun n => if n.fid_ = frame_id then { n with is_evictable_ := set_evictable } else n),
                     curr_size_ := if set_evictable then r.curr_size_ + 1 else r.curr_size_ - 1 }
      else
        .ok r

/-- LRUKReplacer::Remove: range check as in the source, silent no-op on an
unknown fid, typed INVALID failure on a non-evictable node, otherwise
erase the node and decrement curr_size_. -/
def LRUKReplacer.Remove (r : LRUKReplacer) (frame_id : Int) : Except ReplacerError LRUKReplacer :=
  if frame_id < 0 ∨ frame_id.toNat > r.replacer_size_ then
    .error .outOfRange
  else
    match findNode r.node_store_ frame_id with
    | none => .ok r
    | some node =>
      if node.is_evictable_ = false then
        .error .invalidOp
      else
        .ok { r with node_store_ := eraseNode r.node_store_ frame_id,
                     curr_size_ := r.curr_size_ - 1 }

/-- LRUKReplacer::Size returns curr_size_. -/
def LRUKReplacer.Size (r : LRUKReplacer) : Nat := r.curr_size_

/-
BufferPoolManager (src/unnamed/part_000).  The calls into the disk layer
(DiskSchedule with a DiskRequest built from GetData / GetPageId /
CreatePromise, and DeallocatePage) are embedded as an append-only log of
DiskOp events inside the state; the one-shot promise of each request is
abstracted away on this side and modelled separately with the worker.
-/

/-- Disk-layer interactions issued by the BufferPoolManager: a scheduled
write request carrying the page bytes, a scheduled read request for a page,
and the deallocation notice of DeletePage. -/
inductive DiskOp where
  | write (pid : Int) (data : List Nat)
  | read (pid : Int)
  | deallocate (pid : Int)
deriving DecidableEq

/-- Page from the frame array: fixed-size byte buffer data_ (bytes as Nat),
page_id_ (INVALID_PAGE_ID is -1), pin_count_ and is_dirty_. -/
structure Page where
  data_ : List Nat
  page_id_ : Int
  pin_count_ : Int
  is_dirty_ : Bool
deriving DecidableEq

/-- BufferPoolManager state: pool_size_, the frame array pages_ indexed by
frame id, page_table_ (map PageId to FrameId embedded as a list),
free_list_, the owned replacer_, the monotonic next_page_id_, and the log
io of requests handed to the disk layer. -/
structure BufferPoolManager where
  pool_size_ : Nat
  pages_ : List Page
  page_table_ : List (Int × Int)
  free_list_ : List Int
  replacer_ : LRUKReplacer
  next_page_id_ : Int
  io : List DiskOp
deriving DecidableEq

/-- Map erase on page_table_. -/
def ptErase (pt : List (Int × Int)) (pid : Int) : List (Int × Int) :=
  pt.filter (fun e => e.1 != pid)

/-- Map insert-or-assign on page_table_ (the subscript assignment
page_table_[page_id] = frame_id). -/
def ptInsert (pt : List (Int × Int)) (pid fid : Int) : List (Int × Int) :=
  if (pt.lookup pid).isSome then
    pt.map (fun e => if e.1 = pid then (pid, fid) else e)
  else
    pt ++ [(pid, fid)]

/-- strlen(page->GetData()) > 0: true exactly when the first byte of the
buffer is not the NUL byte. -/
def strlenPos (data : List Nat) : Bool := data.headD 0 != 0

/-- BufferPoolManager::DiskSchedule hands a request to the disk scheduler;
embedded as appending the request to the io log. -/
def BufferPoolManager.DiskSchedule (b : BufferPoolManager) (op : DiskOp) : BufferPoolManager :=
  { b with io := b.io ++ [op] }

/-- BufferPoolManager::RequestFrameId: pop the front of the free list if
nonempty; otherwise, if replacer_->Size() > 0, ask the replacer to evict
(leaving the INVALID_FRAME_ID sentinel -1 when Evict fails); otherwise -1. -/
def BufferPoolManager.RequestFrameId (b : BufferPoolManager) : Int × BufferPoolManager :=
  match b.free_list_ with
  | fid :: rest => (fid, { b with free_list_ := rest })
  | [] =>
    if b.replacer_.Size > 0 then
      match b.replacer_.Evict with
      | (some fid, rep) => (fid, { b with replacer_ := rep })
      | (none, rep) => (-1, { b with replacer_ := rep })
    else
      (-1, b)

/-- BufferPoolManager::InitPageOnBufferPool: set page_id_, clear dirty,
pin_count_ = 1, mark the frame non-evictable, record an access, and insert
the page-table entry.  The frame-array subscript with an out-of-range
frame id is undefined behaviour in C++; the none branch is unreachable in
well-formed states. -/
def BufferPoolManager.InitPageOnBufferPool (b : BufferPoolManager) (pid fid : Int) : Except ReplacerError BufferPoolManager :=
  match b.pages_.get? fid.toNat with
  | none => .ok b
  | some pg => do
    let b1 := { b with pages_ := b.pages_.set fid.toNat { pg with page_id_ := pid, is_dirty_ := false, pin_count_ := 1 } }
    let rep1 ← b1.replacer_.SetEvictable fid false
    let rep2 ← rep1.RecordAccess fid
    .ok { b1 with replacer_ := rep2, page_table_ := ptInsert b1.page_table_ pid fid }

/-- BufferPoolManager::NewPage: acquire a frame (null result -1 reported as
none); schedule a write of the victim page only when it is dirty AND
strlen of its data is positive, as the source does; erase the old
page-table entry; ResetMemory (zero the buffer); take next_page_id_ as the
new id, initialize the frame, then AllocatePage increments the counter. -/
def BufferPoolManager.NewPage (b : BufferPoolManager) : Except ReplacerError (Option Int × BufferPoolManager) :=
  let (fid, b1) := b.RequestFrameId
  if fid = -1 then
    .ok (none, b1)
  else
    match b1.pages_.get? fid.toNat with
    | none => .ok (none, b1)
    | some pg => do
      let b2 := if pg.is_dirty_ && strlenPos pg.data_ then b1.DiskSchedule (.write pg.page_id_ pg.data_) else b1
      let b3 := { b2 with page_table_ := ptErase b2.page_table_ pg.page_id_,
                          pages_ := b2.pages_.set fid.toNat { pg with data_ := List.replicate pg.data_.length 0 } }
      let pid := b3.next_page_id_
      let b4 ← b3.InitPageOnBufferPool pid fid
      .ok (some pid, { b4 with next_page_id_ := b4.next_page_id_ + 1 })

/-- BufferPoolManager::FetchPage: on a hit, bump pin_count_, mark the frame
non-evictable and record an access; on a miss, acquire a victim frame,
schedule a write of the victim only when dirty AND strlen positive, erase
the old page-table entry, ResetMemory, initialize the frame for the
requested page and schedule a read for it. -/
def BufferPoolManager.FetchPage (b : BufferPoolManager) (page_id : Int) : Except ReplacerError (Option Int × BufferPoolManager) :=
  match b.page_table_.lookup page_id with
  | some fid =>
    match b.pages_.get? fid.toNat with
    | none => .ok (none, b)
    | some pg => do
      let b1 := { b with pages_ := b.pages_.set fid.toNat { pg with pin_count_ := pg.pin_count_ + 1 } }
      let rep1 ← b1.replacer_.SetEvictable fid false
      let rep2 ← rep1.RecordAccess fid
      .ok (some fid, { b1 with replacer_ := rep2 })
  | none =>
    let (fid, b1) := b.RequestFrameId
    if fid = -1 then
      .ok (none, b1)
    else
      match b1.pages_.get? fid.toNat with
      | none => .ok (none, b1)
      | some pg => do
        let b2 := if pg.is_dirty_ && strlenPos pg.data_ then b1.DiskSchedule (.write pg.page_id_ pg.data_) else b1
        let b3 := { b2 with page_table_ := ptErase b2.page_table_ pg.page_id_,
                            pages_ := b2.pages_.set fid.toNat { pg with data_ := List.replicate pg.data_.length 0 } }
        let b4 ← b3.InitPageOnBufferPool page_id fid
        .ok (some fid, b4.DiskSchedule (.read page_id))

/-- BufferPoolManager::UnpinPage: false when the page is not resident or
pin_count_ is already at or below zero; otherwise decrement the pin count,
mark the frame evictable when it reaches zero, and OVERWRITE is_dirty_
with the argument, exactly as the source assignment does. -/
def BufferPoolManager.UnpinPage (b : BufferPoolManager) (page_id : Int) (is_dirty : Bool) : Except ReplacerError (Bool × BufferPoolManager) :=
  match b.page_table_.lookup page_id with
  | none => .ok (false, b)
  | some fid =>
    match b.pages_.get? fid.toNat with
    | none => .ok (false, b)
    | some pg =>
      if pg.pin_count_ ≤ 0 then
        .ok (false, b)
      else do
        let pc := pg.pin_count_ - 1
        let rep1 ← if pc = 0 then b.replacer_.SetEvictable fid true else .ok b.replacer_
        .ok (true, { b with replacer_ := rep1,
                            pages_ := b.pages_.set fid.toNat { pg with pin_count_ := pc, is_dirty_ := is_dirty } })

/-- BufferPoolManager::FlushPage: false when not resident; otherwise
schedule a write of the frame bytes and clear the dirty bit. -/
def BufferPoolManager.FlushPage (b : BufferPoolManager) (page_id : Int) : Except ReplacerError (Bool × BufferPoolManager) :=
  match b.page_table_.lookup page_id with
  | none => .ok (false, b)
  | some fid =>
    match b.pages_.get? fid.toNat with
    | none => .ok (false, b)
    | some pg =>
      .ok (true, { b.DiskSchedule (.write pg.page_id_ pg.data_) with
                     pages_ := (b.DiskSchedule (.write pg.page_id_ pg.data_)).pages_.set fid.toNat { pg with is_dirty_ := false } })

/-- Modelled from the spec: BufferPoolManager::DeallocatePage lives in the
header that is not part of src; per the spec it notifies the disk layer to
deallocate the page, embedded as a deallocate event in the io log. -/
def BufferPoolManager.DeallocatePage (b : BufferPoolManager) (page_id : Int) : BufferPoolManager :=
  b.DiskSchedule (.deallocate page_id)

/-- BufferPoolManager::DeletePage: vacuous true when not resident; false
when pinned; otherwise erase the page-table entry, remove the frame from
the replacer, push the frame on the back of the free list, ResetMemory and
clear the frame metadata, notify deallocation, return true. -/
def BufferPoolManager.DeletePage (b : BufferPoolManager) (page_id : Int) : Except ReplacerError (Bool × BufferPoolManager) :=
  match b.page_table_.lookup page_id with
  | none => .ok (true, b)
  | some fid =>
    match b.pages_.get? fid.toNat with
    | none => .ok (true, b)
    | some pg =>
      if pg.pin_count_ > 0 then
        .ok (false, b)
      else do
        let rep1 ← b.replacer_.Remove fid
        let b1 := { b with page_table_ := ptErase b.page_table_ page_id,
                           replacer_ := rep1,
                           free_list_ := b.free_list_ ++ [fid],
                           pages_ := b.pages_.set fid.toNat
                             { data_ := List.replicate pg.data_.length 0,
                               page_id_ := -1, pin_count_ := 0, is_dirty_ := false } }
        .ok (true, b1.DeallocatePage page_id)

/-
Page guards (second half of src/src/storage/disk/disk_scheduler.cpp).
A guard holds the bpm_ pointer (modelled as a Bool non-null flag), the
page_ pointer (modelled as the Option of the held page id), and the
accumulated is_dirty_ flag.  The calls a guard makes when dropped
(UnpinPage, RUnlatch, WUnlatch) are recorded as a list of GuardEvent.
-/

/-- Calls emitted by a guard while it is dropped. -/
inductive GuardEvent where
  | unpin (pid : Int) (dirty : Bool)
  | runlatch
  | wunlatch
deriving DecidableEq

/-- BasicPageGuard fields bpm_, page_ and is_dirty_; page_ = none models a
null page pointer (the inert state). -/
structure BasicPageGuard where
  bpm_ : Bool
  page_ : Option Int
  is_dirty_ : Bool
deriving DecidableEq

/-- BasicPageGuard::Drop: when page_ is not null, call UnpinPage with the
held page id and the accumulated dirty flag, then null every member;
otherwise do nothing. -/
def BasicPageGuard.Drop (g : BasicPageGuard) : BasicPageGuard × List GuardEvent :=
  match g.page_ with
  | none => (g, [])
  | some pid => (⟨false, none, false⟩, [.unpin pid g.is_dirty_])

/-- BasicPageGuard move constructor: the new guard takes every member of
that, and that is nulled out.  Returns (new guard, moved-from that). -/
def BasicPageGuard.moveCtor (that : BasicPageGuard) : BasicPageGuard × BasicPageGuard :=
  (⟨that.bpm_, that.page_, that.is_dirty_⟩, ⟨false, none, false⟩)

/-- BasicPageGuard move assignment for distinct objects: Drop the current
guard, transfer the members of that, null that.  Returns ((new this, new
that), events emitted by the Drop of the old this). -/
def BasicPageGuard.moveAssign (tgt that : BasicPageGuard) : (BasicPageGuard × BasicPageGuard) × List GuardEvent :=
  ((⟨that.bpm_, that.page_, that.is_dirty_⟩, ⟨false, none, false⟩), tgt.Drop.2)

/-- Self move assignment: the this != that branch is skipped, nothing
happens. -/
def BasicPageGuard.moveAssignSelf (g : BasicPageGuard) : BasicPageGuard × List GuardEvent :=
  (g, [])

/-- ReadPageGuard wraps an inner BasicPageGuard guard_. -/
structure ReadPageGuard where
  guard_ : BasicPageGuard
deriving DecidableEq

/-- WritePageGuard wraps an inner BasicPageGuard guard_. -/
structure WritePageGuard where
  guard_ : BasicPageGuard
deriving DecidableEq

/-- ReadPageGuard::ReadPageGuard(bpm, page): the constructor body in the
source is empty, so both parameters are discarded and the inner guard_ is
default-constructed holding no page. -/
def ReadPageGuard.ofBpmPage (_bpm : Bool) (_page : Option Int) : ReadPageGuard :=
  ⟨⟨false, none, false⟩⟩

/-- WritePageGuard::WritePageGuard(bpm, page): same empty body as the read
variant; the inner guard_ is default-constructed holding no page. -/
def WritePageGuard.ofBpmPage (_bpm : Bool) (_page : Option Int) : WritePageGuard :=
  ⟨⟨false, none, false⟩⟩

/-- BasicPageGuard::UpgradeRead returns ReadPageGuard(bpm_, page_); the
source does not null out the original guard, so it is returned unchanged
alongside the new guard. -/
def BasicPageGuard.UpgradeRead (g : BasicPageGuard) : ReadPageGuard × BasicPageGuard :=
  (ReadPageGuard.ofBpmPage g.bpm_ g.page_, g)

/-- BasicPageGuard::UpgradeWrite returns WritePageGuard(bpm_, page_); the
original guard is likewise left unchanged by the source. -/
def BasicPageGuard.UpgradeWrite (g : BasicPageGuard) : WritePageGuard × BasicPageGuard :=
  (WritePageGuard.ofBpmPage g.bpm_ g.page_, g)

/-- ReadPageGuard::Drop: when the inner page_ is not null, first call
UnpinPage(page id, is_dirty_), then RUnlatch, then null the members, in
exactly the source order. -/
def ReadPageGuard.Drop (g : ReadPageGuard) : ReadPageGuard × List GuardEvent :=
  match g.guard_.page_ with
  | none => (g, [])
  | some pid => (⟨⟨false, none, g.guard_.is_dirty_⟩⟩, [.unpin pid g.guard_.is_dirty_, .runlatch])

/-- WritePageGuard::Drop: when the inner page_ is not null, first call
UnpinPage(page id, is_dirty_), then WUnlatch, then null the members, in
exactly the source order. -/
def WritePageGuard.Drop (g : WritePageGuard) : WritePageGuard × List GuardEvent :=
  match g.guard_.page_ with
  | none => (g, [])
  | some pid => (⟨⟨false, none, g.guard_.is_dirty_⟩⟩, [.unpin pid g.guard_.is_dirty_, .wunlatch])

/-- Chain of n successive move constructions starting from g: returns the
final guard together with the list of moved-from sources left behind. -/
def moveChain : Nat → BasicPageGuard → BasicPageGuard × List BasicPageGuard
  | 0, g => (g, [])
  | n + 1, g =>
    let (tgt, src) := g.moveCtor
    let (fin, srcs) := moveChain n tgt
    (fin, src :: srcs)

/-- Events emitted by dropping every guard of a list in order (each guard
destructor runs Drop). -/
def dropAll : List BasicPageGuard → List GuardEvent
  | [] => []
  | g :: gs => g.Drop.2 ++ dropAll gs

/-
DiskScheduler worker (DiskScheduler::StartWorkerThread).  The queue
contents, in dequeue order, are a list of std::optional<DiskRequest>; the
std::nullopt sentinel stops the loop.  The disk manager is an external
collaborator that may fail; a failure of ReadPage / WritePage is a C++
exception, which the worker does not catch: it propagates out of the loop
before callback_.set_value(true) runs.  The outcome of the disk call is
supplied by the oracle ok.
-/

/-- DiskRequest of the worker queue: direction, page id, and the identity
rid of its one-shot completion promise. -/
structure DiskRequest where
  is_write_ : Bool
  page_id_ : Int
  rid : Nat
deriving DecidableEq

/-- Queue items dequeued by the worker: a request or the nullopt
sentinel. -/
inductive QItem where
  | req (r : DiskRequest)
  | sentinel
deriving DecidableEq

/-- How a worker run ends: normal exit on the sentinel, an escaped disk
manager exception while serving the request whose promise is rid, or the
modelled queue ran out (the real worker would keep blocking on Get). -/
inductive WExit where
  | sentinelStop
  | crashed (rid : Nat)
  | blocked
deriving DecidableEq

/-- The worker loop: dequeue, stop on the sentinel, serve the request with
the disk manager, then set the completion promise to true.  Returns the
rids of the promises that were fulfilled, in order, and how the loop
ended.  When the disk call fails, the promise of that request is never
set and the loop is torn down by the exception. -/
def runWorker (ok : DiskRequest → Bool) : List QItem → List Nat × WExit
  | [] => ([], .blocked)
  | .sentinel :: _ => ([], .sentinelStop)
  | .req r :: rest =>
    if ok r then
      let (sigs, e) := runWorker ok rest
      (r.rid :: sigs, e)
    else
      ([], .crashed r.rid)

/-- The requests dequeued before the first sentinel (the ones the worker
serves on a failure-free run), by promise identity. -/
def ridsBefore : List QItem → List Nat
  | [] => []
  | .sentinel :: _ => []
  | .req r :: rest => r.rid :: ridsBefore rest

/-
Helper lemmas about the Evict scan, shared by the replacer and
buffer-pool theorems.
-/

/-- Invariant carried by the Evict scan over the prefix seen of the node
store: with no victim yet, nothing seen is evictable; with victim v and
running maximum maxd, v is a seen evictable node whose distance is maxd,
every seen evictable node has distance at most maxd, and on a tie the
victim has the smaller or equal history front. -/
def GoodAcc (r : LRUKReplacer) (seen : List LRUKNode) : Option LRUKNode × Nat → Prop
  | (none, _) => ∀ n ∈ seen, n.is_evictable_ = false
  | (some v, maxd) =>
      v ∈ seen ∧ v.is_evictable_ = true ∧ maxd = distOf r v ∧
      ∀ m ∈ seen, m.is_evictable_ = true →
        distOf r m ≤ maxd ∧ (distOf r m = maxd → front v ≤ front m)

lemma evictLoop_none_of_all (r : LRUKReplacer) :
    ∀ (l : List LRUKNode) (d : Nat), (∀ n ∈ l, n.is_evictable_ = false) →
      evictLoop r l (none, d) = (none, d) := by
  intro l
  induction l with
  | nil => intro d _; rfl
  | cons n rest ih =>
    intro d h
    have hn : n.is_evictable_ = false := h n (by simp)
    rw [show evictLoop r (n :: rest) (none, d) = evictLoop r rest (none, d) by
      simp [evictLoop, hn]]
    exact ih d (fun m hm => h m (by simp [hm]))

lemma evictLoop_cons_skip (r : LRUKReplacer) (n : LRUKNode) (rest : List LRUKNode)
    (acc : Option LRUKNode × Nat) (hn : n.is_evictable_ = false) :
    evictLoop r (n :: rest) acc = evictLoop r rest acc := by
  obtain ⟨vop, d⟩ := acc
  cases vop <;> simp [evictLoop, hn]

lemma evictLoop_cons_first (r : LRUKReplacer) (n : LRUKNode) (rest : List LRUKNode)
    (d : Nat) (hn : n.is_evictable_ = true) :
    evictLoop r (n :: rest) (none, d) = evictLoop r rest (some n, distOf r n) := by
  simp [evictLoop, hn]

lemma evictLoop_cons_step (r : LRUKReplacer) (n v : LRUKNode) (rest : List LRUKNode)
    (maxd : Nat) (hn : n.is_evictable_ = true) :
    evictLoop r (n :: rest) (some v, maxd) =
      if maxd < distOf r n ∨ (maxd = distOf r n ∧ front n < front v) then
        evictLoop r rest (some n, distOf r n)
      else
        evictLoop r rest (some v, maxd) := by
  simp [evictLoop, hn]

lemma goodAcc_none (r : LRUKReplacer) (seen : List LRUKNode) (d : Nat) :
    GoodAcc r seen (none, d) ↔ ∀ n ∈ seen, n.is_evictable_ = false := Iff.rfl

lemma goodAcc_some (r : LRUKReplacer) (seen : List LRUKNode) (v : LRUKNode) (maxd : Nat) :
    GoodAcc r seen (some v, maxd) ↔
      (v ∈ seen ∧ v.is_evictable_ = true ∧ maxd = distOf r v ∧
       ∀ m ∈ seen, m.is_evictable_ = true →
         distOf r m ≤ maxd ∧ (distOf r m = maxd → front v ≤ front m)) := Iff.rfl

lemma evictLoop_good (r : LRUKReplacer) :
    ∀ (l seen : List LRUKNode) (acc : Option LRUKNode × Nat),
      GoodAcc r seen acc → GoodAcc r (seen ++ l) (evictLoop r l acc) := by
  intro l
  induction l with
  | nil => intro seen acc h; simpa [evictLoop] using h
  | cons n rest ih =>
    intro seen acc h
    rw [show seen ++ n :: rest = (seen ++ [n]) ++ rest by simp]
    by_cases hn : n.is_evictable_ = false
    · rw [evictLoop_cons_skip r n rest acc hn]
      apply ih
      obtain ⟨vop, maxd⟩ := acc
      cases vop with
      | none =>
        rw [goodAcc_none] at h ⊢
        intro m hm
        rcases List.mem_append.mp hm with hm | hm
        · exact h m hm
        · have hmn : m = n := by simpa using hm
          rw [hmn]; exact hn
      | some v =>
        rw [goodAcc_some] at h ⊢
        obtain ⟨hv_mem, hv_ev, hmax, hbound⟩ := h
        refine ⟨List.mem_append.mpr (Or.inl hv_mem), hv_ev, hmax, ?_⟩
        intro m hm hme
        rcases List.mem_append.mp hm with hm | hm
        · exact hbound m hm hme
        · have hmn : m = n := by simpa using hm
          rw [hmn] at hme
          exact absurd hme (by simp [hn])
    · have hnt : n.is_evictable_ = true := by
        revert hn; cases n.is_evictable_ <;> simp
      obtain ⟨vop, maxd⟩ := acc
      cases vop with
      | none =>
        rw [evictLoop_cons_first r n rest maxd hnt]
        apply ih
        rw [goodAcc_none] at h
        rw [goodAcc_some]
        refine ⟨List.mem_append.mpr (Or.inr (by simp)), hnt, rfl, ?_⟩
        intro m hm hme
        rcases List.mem_append.mp hm with hm | hm
        · exact absurd hme (by simp [h m hm])
        · have hmn : m = n := by simpa using hm
          rw [hmn]
          exact ⟨le_refl _, fun _ => le_refl _⟩
      | some v =>
        rw [goodAcc_some] at h
        obtain ⟨hv_mem, hv_ev, hmax, hbound⟩ := h
        rw [evictLoop_cons_step r n v rest maxd hnt]
        by_cases hrep : maxd < distOf r n ∨ (maxd = distOf r n ∧ front n < front v)
        · rw [if_pos hrep]
          apply ih
          rw [goodAcc_some]
          refine ⟨List.mem_append.mpr (Or.inr (by simp)), hnt, rfl, ?_⟩
          intro m hm hme
          rcases List.mem_append.mp hm with hm | hm
          · have hb := hbound m hm hme
            rcases hrep with hlt | ⟨heq, hfr⟩
            · constructor
              · omega
              · intro habs; omega
            · constructor
              · omega
              · intro hdm
                have hvm : front v ≤ front m := hb.2 (by omega)
                omega
          · have hmn : m = n := by simpa using hm
            rw [hmn]
            exact ⟨le_refl _, fun _ => le_refl _⟩
        · rw [if_neg hrep]
          apply ih
          push_neg at hrep
          obtain ⟨hle, htie⟩ := hrep
          rw [goodAcc_some]
          refine ⟨List.mem_append.mpr (Or.inl hv_mem), hv_ev, hmax, ?_⟩
          intro m hm hme
          rcases List.mem_append.mp hm with hm | hm
          · exact hbound m hm hme
          · have hmn : m = n := by simpa using hm
            rw [hmn]
            constructor
            · omega
            · intro hdeq
              have := htie hdeq.symm
              omega

/-
Theorems for the claims.
-/

/-- Claim C1: for every replacer state, Evict returns none exactly when no
node is evictable; otherwise it returns the fid of an evictable node whose
backward K-distance (current_timestamp_ - history front when the history
has reached K entries, the infinite size_t value otherwise) is greatest
among all evictable nodes, with every tie broken towards the earliest
history front (which for the infinite class is the first-access
timestamp), and that node is erased from node_store_. -/
theorem evict_greatest_backward_k_distance (r : LRUKReplacer) :
    ((r.Evict.1 = none) ↔ ∀ n ∈ r.node_store_, n.is_evictable_ = false) ∧
    (∀ fid, r.Evict.1 = some fid →
      ∃ v ∈ r.node_store_, v.fid_ = fid ∧ v.is_evictable_ = true ∧
        (∀ m ∈ r.node_store_, m.is_evictable_ = true →
          distOf r m ≤ distOf r v ∧ (distOf r m = distOf r v → front v ≤ front m)) ∧
        r.Evict.2.node_store_ = eraseNode r.node_store_ fid) := by
  have hG : GoodAcc r ([] ++ r.node_store_) (evictLoop r r.node_store_ (none, 0)) :=
    evictLoop_good r r.node_store_ [] (none, 0) (by intro n hn; cases hn)
  rw [List.nil_append] at hG
  rcases hE : evictLoop r r.node_store_ (none, 0) with ⟨vop, maxd⟩
  rw [hE] at hG
  cases vop with
  | none =>
    have hEv : r.Evict = (none, r) := by
      unfold LRUKReplacer.Evict
      rw [hE]
    rw [goodAcc_none] at hG
    constructor
    · rw [hEv]; exact iff_of_true rfl hG
    · intro fid hfid
      rw [hEv] at hfid
      cases hfid
  | some v =>
    have hEv : r.Evict = (some v.fid_,
        { r with node_store_ := eraseNode r.node_store_ v.fid_,
                 curr_size_ := r.curr_size_ - 1 }) := by
      unfold LRUKReplacer.Evict
      rw [hE]
    rw [goodAcc_some] at hG
    obtain ⟨hv_mem, hv_ev, hmax, hbound⟩ := hG
    constructor
    · rw [hEv]
      refine iff_of_false (by simp) ?_
      intro hall
      have hvf := hall v hv_mem
      rw [hv_ev] at hvf
      cases hvf
    · intro fid hfid
      rw [hEv] at hfid
      have hf : v.fid_ = fid := Option.some.inj hfid
      refine ⟨v, hv_mem, hf, hv_ev, ?_, ?_⟩
      · intro m hm hme
        have hb := hbound m hm hme
        constructor
        · omega
        · intro hdm
          exact hb.2 (by omega)
      · rw [hEv, ← hf]

/-- Concrete replacer for the C1 witness: K = 2, frames 0, 1, 2 accessed
once each at timestamps 1, 2, 3 (the spec scenario where every distance is
infinite and the earliest first access wins). -/
def rplC1 : LRUKReplacer :=
  { node_store_ := [⟨0, [1], true⟩, ⟨1, [2], true⟩, ⟨2, [3], true⟩],
    current_timestamp_ := 3, curr_size_ := 3, replacer_size_ := 7, k_ := 2 }

/-- Witness for C1: on the concrete three-frame state, Evict picks frame 0
and the theorem yields the victim with its maximality and erasure facts. -/
theorem evict_greatest_backward_k_distance_witness :
    ∃ v ∈ rplC1.node_store_, v.fid_ = 0 ∧ v.is_evictable_ = true ∧
      (∀ m ∈ rplC1.node_store_, m.is_evictable_ = true →
        distOf rplC1 m ≤ distOf rplC1 v ∧
          (distOf rplC1 m = distOf rplC1 v → front v ≤ front m)) ∧
      rplC1.Evict.2.node_store_ = eraseNode rplC1.node_store_ 0 :=
  (evict_greatest_backward_k_distance rplC1).2 0 (by decide)

/-- Claim C10: when the free list is empty and no replacer node is
evictable, NewPage returns the null sentinel and the whole pool state,
including next_page_id_, the page table, the free list, the replacer and
every frame, is exactly the state before the call. -/
theorem newpage_exhausted_pool_unchanged (b : BufferPoolManager)
    (hfl : b.free_list_ = [])
    (hev : ∀ n ∈ b.replacer_.node_store_, n.is_evictable_ = false) :
    b.NewPage = .ok (none, b) := by
  have hE : b.replacer_.Evict = (none, b.replacer_) := by
    unfold LRUKReplacer.Evict
    rw [evictLoop_none_of_all b.replacer_ b.replacer_.node_store_ 0 hev]
  obtain ⟨ps, pgs, pt, fl, rep, np, ioL⟩ := b
  dsimp only at hfl hE
  subst hfl
  have hR : BufferPoolManager.RequestFrameId ⟨ps, pgs, pt, [], rep, np, ioL⟩ =
      (-1, ⟨ps, pgs, pt, [], rep, np, ioL⟩) := by
    unfold BufferPoolManager.RequestFrameId
    by_cases h : rep.Size > 0
    · simp only [if_pos h]
      rw [hE]
    · simp only [if_neg h]
  unfold BufferPoolManager.NewPage
  rw [hR]
  rfl

/-- Concrete exhausted pool for the C10 witness: one frame, resident,
pinned, not evictable, empty free list. -/
def bpmC10 : BufferPoolManager :=
  { pool_size_ := 1,
    pages_ := [⟨[0, 0], 3, 1, false⟩],
    page_table_ := [(3, 0)],
    free_list_ := [],
    replacer_ := { node_store_ := [⟨0, [1], false⟩], current_timestamp_ := 1,
                   curr_size_ := 0, replacer_size_ := 1, k_ := 2 },
    next_page_id_ := 4, io := [] }

/-- Witness for C10: the concrete exhausted pool is returned untouched. -/
theorem newpage_exhausted_pool_unchanged_witness :
    BufferPoolManager.NewPage bpmC10 = .ok (none, bpmC10) :=
  newpage_exhausted_pool_unchanged bpmC10 rfl (by decide)

/-- Concrete pool for C2: page 5 is resident in frame 0 with pin_count_ 1
and the dirty bit already set. -/
def bpmC2 : BufferPoolManager :=
  { pool_size_ := 1,
    pages_ := [⟨[1, 0], 5, 1, true⟩],
    page_table_ := [(5, 0)],
    free_list_ := [],
    replacer_ := { node_store_ := [⟨0, [1], false⟩], current_timestamp_ := 1,
                   curr_size_ := 0, replacer_size_ := 1, k_ := 2 },
    next_page_id_ := 6, io := [] }

/-- Claim C2 (code bug): page 5 is resident, pinned and already marked
dirty, yet the clean unpin UnpinPage(5, false) returns true and leaves the
frame CLEAN, because the source assigns is_dirty_ = is_dirty instead of
OR-ing the hint into the flag; the claimed monotonicity of dirty bits
under unpins fails on this input. -/
theorem unpinpage_overwrites_dirty_bit :
    (BufferPoolManager.UnpinPage bpmC2 5 false).map
        (fun x => (x.1, x.2.pages_.map Page.is_dirty_)) = .ok (true, [false]) := by
  rfl

/-- Concrete replacer for C4 with num_frames = 3. -/
def rplC4 : LRUKReplacer :=
  { node_store_ := [], current_timestamp_ := 0, curr_size_ := 0,
    replacer_size_ := 3, k_ := 2 }

/-- Claim C4 (code bug): with num_frames = 3 the frame id 3 lies outside
[0, num_frames) and the claim demands an OutOfRange failure, yet
RecordAccess, SetEvictable and Remove all accept it because the source
range checks compare with > instead of >= against num_frames; in-range id
0 is accepted and ids -1 and 4 are rejected, locating the off-by-one
exactly at fid = num_frames. -/
theorem replacer_accepts_frame_id_equal_num_frames :
    (rplC4.RecordAccess 3).toOption.isSome = true ∧
    (rplC4.SetEvictable 3 true).toOption.isSome = true ∧
    (rplC4.Remove 3).toOption.isSome = true ∧
    (rplC4.RecordAccess 0).toOption.isSome = true ∧
    (rplC4.RecordAccess (-1)).toOption.isSome = false ∧
    (rplC4.RecordAccess 4).toOption.isSome = false := by
  decide

/-- Concrete pool for C3: the only frame holds page 7, unpinned, DIRTY,
and its buffer starts with a NUL byte; the replacer can evict it. -/
def bpmC3 : BufferPoolManager :=
  { pool_size_ := 1,
    pages_ := [⟨[0, 5], 7, 0, true⟩],
    page_table_ := [(7, 0)],
    free_list_ := [],
    replacer_ := { node_store_ := [⟨0, [1], true⟩], current_timestamp_ := 1,
                   curr_size_ := 1, replacer_size_ := 1, k_ := 2 },
    next_page_id_ := 9, io := [] }

/-- Claim C3 (code bug): the victim frame reused by NewPage and by the
FetchPage miss path is dirty, yet because its buffer begins with a NUL
byte (so strlen(GetData()) == 0) no disk write of page 7 is ever issued
before the buffer is cleared and reassociated: NewPage emits no disk
request at all, and FetchPage emits only the read of the requested page. -/
theorem eviction_skips_flush_of_nul_leading_dirty_victim :
    (bpmC3.pages_.map Page.is_dirty_ = [true]) ∧
    (BufferPoolManager.NewPage bpmC3).map (fun x => x.2.io) = .ok [] ∧
    (BufferPoolManager.FetchPage bpmC3 9).map (fun x => x.2.io) = .ok [.read 9] :=
  ⟨rfl, rfl, rfl⟩

/-- Claim C5: DeletePage returns true and changes nothing when the page is
not resident; returns false and changes nothing when the page is resident
and pinned; and otherwise (for a resident unpinned page, in a well-formed
state where the frame id fits the replacer range and any replacer node of
that frame is evictable) erases the page-table entry, leaves no replacer
node for the frame, appends the frame to the free list, resets the frame
metadata (zeroed buffer, INVALID page id, zero pin count, clean), notifies
the disk layer to deallocate the page, and returns true with next_page_id_
untouched. -/
theorem deletepage_contract (b : BufferPoolManager) (pid : Int) :
    (b.page_table_.lookup pid = none → b.DeletePage pid = .ok (true, b)) ∧
    (∀ fid pg, b.page_table_.lookup pid = some fid →
      b.pages_.get? fid.toNat = some pg →
      (pg.pin_count_ > 0 → b.DeletePage pid = .ok (false, b)) ∧
      (pg.pin_count_ ≤ 0 →
        0 ≤ fid →
        fid.toNat ≤ b.replacer_.replacer_size_ →
        (∀ n ∈ b.replacer_.node_store_, n.fid_ = fid → n.is_evictable_ = true) →
        ∃ b2, b.DeletePage pid = .ok (true, b2) ∧
          b2.page_table_ = ptErase b.page_table_ pid ∧
          (∀ n ∈ b2.replacer_.node_store_, n.fid_ ≠ fid) ∧
          b2.free_list_ = b.free_list_ ++ [fid] ∧
          b2.pages_ = b.pages_.set fid.toNat
            { data_ := List.replicate pg.data_.length 0,
              page_id_ := -1, pin_count_ := 0, is_dirty_ := false } ∧
          b2.io = b.io ++ [DiskOp.deallocate pid] ∧
          b2.next_page_id_ = b.next_page_id_)) := by
  constructor
  · intro h
    unfold BufferPoolManager.DeletePage
    rw [h]
  · intro fid pg hlk hpg
    constructor
    · intro hpin
      unfold BufferPoolManager.DeletePage
      simp only [hlk, hpg]
      rw [if_pos hpin]
    · intro hpin h0 hsz hev
      have hrange : ¬ (fid < 0 ∨ fid.toNat > b.replacer_.replacer_size_) := by
        push_neg
        exact ⟨by omega, hsz⟩
      have hnp : ¬ pg.pin_count_ > 0 := by omega
      cases hfind : findNode b.replacer_.node_store_ fid with
      | none =>
        have hrem : b.replacer_.Remove fid = .ok b.replacer_ := by
          unfold LRUKReplacer.Remove
          rw [if_neg hrange]
          simp only [hfind]
        have hdel : b.DeletePage pid = .ok (true,
            { b with page_table_ := ptErase b.page_table_ pid,
                     free_list_ := b.free_list_ ++ [fid],
                     pages_ := b.pages_.set fid.toNat
                       { data_ := List.replicate pg.data_.length 0,
                         page_id_ := -1, pin_count_ := 0, is_dirty_ := false },
                     io := b.io ++ [DiskOp.deallocate pid] }) := by
          unfold BufferPoolManager.DeletePage
          simp only [hlk, hpg]
          rw [if_neg hnp, hrem]
          rfl
        refine ⟨_, hdel, rfl, ?_, rfl, rfl, rfl, rfl⟩
        intro n hn hcon
        have hall := List.find?_eq_none.mp hfind
        have hx := hall n hn
        rw [hcon] at hx
        simp at hx
      | some node =>
        have hmem : node ∈ b.replacer_.node_store_ := List.mem_of_find?_eq_some hfind
        have hfe : node.fid_ = fid := by
          have hp := List.find?_some hfind
          simpa using hp
        have hevn : ¬ node.is_evictable_ = false := by
          rw [hev node hmem hfe]
          simp
        have hrem : b.replacer_.Remove fid = .ok
            { b.replacer_ with node_store_ := eraseNode b.replacer_.node_store_ fid,
                               curr_size_ := b.replacer_.curr_size_ - 1 } := by
          unfold LRUKReplacer.Remove
          rw [if_neg hrange]
          simp only [hfind]
          rw [if_neg hevn]
        have hdel : b.DeletePage pid = .ok (true,
            { b with page_table_ := ptErase b.page_table_ pid,
                     replacer_ := { b.replacer_ with
                                    node_store_ := eraseNode b.replacer_.node_store_ fid,
                                    curr_size_ := b.replacer_.curr_size_ - 1 },
                     free_list_ := b.free_list_ ++ [fid],
                     pages_ := b.pages_.set fid.toNat
                       { data_ := List.replicate pg.data_.length 0,
                         page_id_ := -1, pin_count_ := 0, is_dirty_ := false },
                     io := b.io ++ [DiskOp.deallocate pid] }) := by
          unfold BufferPoolManager.DeletePage
          simp only [hlk, hpg]
          rw [if_neg hnp, hrem]
          rfl
        refine ⟨_, hdel, rfl, ?_, rfl, rfl, rfl, rfl⟩
        intro n hn
        have hx := (List.mem_filter.mp hn).2
        simpa using hx

/-- Concrete pool for the C5 witness: page 7 resident in frame 0, pin
count 0, frame evictable. -/
def bpmC5 : BufferPoolManager :=
  { pool_size_ := 1,
    pages_ := [⟨[1, 2], 7, 0, false⟩],
    page_table_ := [(7, 0)],
    free_list_ := [],
    replacer_ := { node_store_ := [⟨0, [1], true⟩], current_timestamp_ := 1,
                   curr_size_ := 1, replacer_size_ := 1, k_ := 2 },
    next_page_id_ := 8, io := [] }

/-- Witness for C5: deleting the resident unpinned page 7 on the concrete
pool yields the full list of effects of the delete branch. -/
theorem deletepage_contract_witness :
    ∃ b2, bpmC5.DeletePage 7 = .ok (true, b2) ∧
      b2.page_table_ = ptErase bpmC5.page_table_ 7 ∧
      (∀ n ∈ b2.replacer_.node_store_, n.fid_ ≠ 0) ∧
      b2.free_list_ = bpmC5.free_list_ ++ [0] ∧
      b2.pages_ = bpmC5.pages_.set (0 : Int).toNat
        { data_ := List.replicate (Page.mk [1, 2] 7 0 false).data_.length 0,
          page_id_ := -1, pin_count_ := 0, is_dirty_ := false } ∧
      b2.io = bpmC5.io ++ [DiskOp.deallocate 7] ∧
      b2.next_page_id_ = bpmC5.next_page_id_ :=
  ((deletepage_contract bpmC5 7).2 0 (Page.mk [1, 2] 7 0 false) rfl rfl).2
    (by decide) (by decide) (by decide) (by decide)

/-- Claim C6 counterexample: on the live read and write guards holding
page 5, Drop does NOT produce the claimed order (latch release first, then
unpin); it produces the unpin first. -/
theorem guard_drop_order_counterexample :
    (ReadPageGuard.Drop ⟨⟨true, some 5, false⟩⟩).2 ≠
      [GuardEvent.runlatch, GuardEvent.unpin 5 false] ∧
    (WritePageGuard.Drop ⟨⟨true, some 5, false⟩⟩).2 ≠
      [GuardEvent.wunlatch, GuardEvent.unpin 5 false] ∧
    (ReadPageGuard.Drop ⟨⟨true, some 5, false⟩⟩).2 =
      [GuardEvent.unpin 5 false, GuardEvent.runlatch] ∧
    (WritePageGuard.Drop ⟨⟨true, some 5, false⟩⟩).2 =
      [GuardEvent.unpin 5 false, GuardEvent.wunlatch] := by
  decide

/-- Claim C6 amended: dropping a live read or write guard performs its two
effects in the order: first unpin the page via UnpinPage (with the
accumulated dirty flag), then release the frame latch (shared RUnlatch for
the read guard, exclusive WUnlatch for the write guard); dropping a guard
whose page pointer is null emits nothing. -/
theorem guard_drop_unpin_then_unlatch (pid : Int) (d bp : Bool) :
    (ReadPageGuard.Drop ⟨⟨bp, some pid, d⟩⟩).2 =
      [GuardEvent.unpin pid d, GuardEvent.runlatch] ∧
    (WritePageGuard.Drop ⟨⟨bp, some pid, d⟩⟩).2 =
      [GuardEvent.unpin pid d, GuardEvent.wunlatch] ∧
    (ReadPageGuard.Drop ⟨⟨bp, none, d⟩⟩).2 = [] ∧
    (WritePageGuard.Drop ⟨⟨bp, none, d⟩⟩).2 = [] :=
  ⟨rfl, rfl, rfl, rfl⟩

/-- Concrete basic guard for C7, holding page 5 with the dirty flag set. -/
def bgC7 : BasicPageGuard := ⟨true, some 5, true⟩

/-- Claim C7 (code bug): UpgradeRead and UpgradeWrite on a basic guard
holding page 5 return latched guards whose inner basic guard is the
default-constructed empty guard — the (bpm, page) constructors have empty
bodies and install neither the pin nor the latch — so dropping the
upgraded guard emits nothing for the frame, and the original basic guard
is not invalidated: it still holds page 5. -/
theorem upgrade_constructors_leave_inner_guard_empty :
    bgC7.UpgradeRead.1.guard_ = ⟨false, none, false⟩ ∧
    (ReadPageGuard.Drop bgC7.UpgradeRead.1).2 = [] ∧
    bgC7.UpgradeRead.2 = bgC7 ∧
    bgC7.UpgradeWrite.1.guard_ = ⟨false, none, false⟩ ∧
    (WritePageGuard.Drop bgC7.UpgradeWrite.1).2 = [] ∧
    bgC7.UpgradeWrite.2 = bgC7 := by
  decide

/-- Claim C9: guard moves transfer ownership without duplicating it.  The
moved-from guard of a move construction holds no page and its Drop emits
nothing; Drop is idempotent on every guard; move assignment hands the
target exactly the members of the source, nulls the source, and emits
exactly the Drop events of the overwritten target; self move assignment
does nothing; and across any chain of n move constructions, dropping the
final guard together with every moved-from source emits exactly the
events of dropping the original guard once — so a held frame is unpinned
exactly once across the guard and everything moved from it. -/
theorem guard_moves_no_double_unpin :
    (∀ g : BasicPageGuard, g.moveCtor.2.page_ = none ∧ g.moveCtor.2.Drop.2 = []) ∧
    (∀ g : BasicPageGuard, g.Drop.1.Drop.2 = []) ∧
    (∀ tgt src : BasicPageGuard,
      (tgt.moveAssign src).1.2 = ⟨false, none, false⟩ ∧
      (tgt.moveAssign src).1.1 = ⟨src.bpm_, src.page_, src.is_dirty_⟩ ∧
      (tgt.moveAssign src).2 = tgt.Drop.2) ∧
    (∀ g : BasicPageGuard, g.moveAssignSelf = (g, [])) ∧
    (∀ (n : Nat) (g : BasicPageGuard),
      (moveChain n g).1.Drop.2 ++ dropAll (moveChain n g).2 = g.Drop.2) := by
  refine ⟨?_, ?_, ?_, ?_, ?_⟩
  · intro g; exact ⟨rfl, rfl⟩
  · intro g
    rcases g with ⟨bp, pg, d⟩
    cases pg <;> rfl
  · intro tgt src; exact ⟨rfl, rfl, rfl⟩
  · intro g; rfl
  · intro n
    induction n with
    | zero =>
      intro g
      simp [moveChain, dropAll]
    | succ n ih =>
      intro g
      have h := ih ⟨g.bpm_, g.page_, g.is_dirty_⟩
      simp only [moveChain, BasicPageGuard.moveCtor, dropAll] at h ⊢
      rw [show (BasicPageGuard.Drop ⟨false, none, false⟩).2 = [] from rfl]
      rw [List.nil_append]
      exact h

/-- Claim C8 counterexample: the queue holds a single request whose
promise is 0 and the disk manager fails on it: the worker terminates by
the escaped exception rather than by the sentinel, the promise is never
set (so it is not set exactly once and carries no value at all), and the
worker does not continue. -/
theorem worker_failure_counterexample :
    runWorker (fun _ => false) [QItem.req ⟨true, 3, 0⟩] = ([], WExit.crashed 0) ∧
    ¬ (0 ∈ (runWorker (fun _ => false) [QItem.req ⟨true, 3, 0⟩]).1) := by
  decide

/-- Claim C8 amended: on a failure-free queue the worker sets the promise
of every request dequeued before the first sentinel exactly once, with
success and in dequeue order, and its loop stops with the sentinel exactly
when a sentinel is queued; but when the disk manager signals failure on
the request at the head of the queue, the worker is torn down by the
escaped exception: that request promise is left unset and nothing after
it is served. -/
theorem worker_signals_and_sentinel (ok : DiskRequest → Bool) :
    (∀ items : List QItem, (∀ r, QItem.req r ∈ items → ok r = true) →
      runWorker ok items =
        (ridsBefore items,
         if QItem.sentinel ∈ items then WExit.sentinelStop else WExit.blocked)) ∧
    (∀ (r : DiskRequest) (rest : List QItem), ok r = false →
      runWorker ok (QItem.req r :: rest) = ([], WExit.crashed r.rid)) := by
  constructor
  · intro items
    induction items with
    | nil => intro _; simp [runWorker, ridsBefore]
    | cons q rest ih =>
      intro h
      cases q with
      | sentinel => simp [runWorker, ridsBefore]
      | req r =>
        have hr : ok r = true := h r (by simp)
        have hrest := ih (fun r2 hm => h r2 (by simp [hm]))
        simp [runWorker, ridsBefore, hr, hrest]
  · intro r rest hf
    simp [runWorker, hf]

/-- Concrete queue for the C8 witness: two good requests, the sentinel,
and a request after the sentinel that is never served. -/
def queueC8 : List QItem :=
  [QItem.req ⟨true, 3, 0⟩, QItem.req ⟨false, 4, 1⟩, QItem.sentinel, QItem.req ⟨true, 5, 2⟩]

/-- Witness for C8: on the concrete queue with no disk failures the worker
sets promises 0 and 1 once each and stops at the sentinel; with a failing
disk manager a single-request queue crashes with promise 7 unset. -/
theorem worker_signals_and_sentinel_witness :
    runWorker (fun _ => true) queueC8 = ([0, 1], WExit.sentinelStop) ∧
    runWorker (fun _ => false) [QItem.req ⟨true, 3, 7⟩] = ([], WExit.crashed 7) := by
  constructor
  · have h := (worker_signals_and_sentinel (fun _ => true)).1 queueC8 (fun r _ => rfl)
    rw [h]
    decide
  · exact (worker_signals_and_sentinel (fun _ => false)).2 ⟨true, 3, 7⟩ [] rfl

end Bustub
